import Mathlib

/-!
Shallow embedding of the govt-schemes eligibility core:
the matching engine (`src/webapp/matcher.py`, class `MatchingEngine` and the
batch helper `evaluate_rules_for_profile`) and the rule-extraction parsers
(`src/webapp/rule_parser.py` and `src/webapp/aditya/rule_parser.py`).

Python values crossing the profile/rule boundary are modelled by the `Value`
type.  Python numbers (int and float) are modelled exactly by `Int` and `ℚ`;
Python exceptions do not occur in the embedded fragment (every embedded
function is total), matching the source, whose evaluation paths never raise
for business-logic reasons.
-/

/-- A Python value as it appears in profiles and rule ASTs: `None`, a bool,
an int, a float (modelled as an exact rational), a string, or a list. -/
inductive Value where
  | vNone : Value
  | vBool : Bool → Value
  | vInt : Int → Value
  | vFloat : ℚ → Value
  | vStr : String → Value
  | vList : List Value → Value

/-- Python `v is None`. -/
def Value.isNone : Value → Bool
  | Value.vNone => true
  | _ => false

/-- Python truthiness `bool(v)`: `None`, `False`, `0`, `0.0`, `""` and `[]`
are falsy, everything else is truthy. -/
def pyTruthy : Value → Bool
  | Value.vNone => false
  | Value.vBool b => b
  | Value.vInt n => n != 0
  | Value.vFloat q => q != 0
  | Value.vStr s => s != ""
  | Value.vList xs => !xs.isEmpty

/-- Best-effort rendering of a rational as Python renders the number it came
from: integral values print without a fractional part (the embedded claims
never inspect a non-integral rendering). -/
def numRepr (q : ℚ) : String :=
  if q.den = 1 then toString q.num else toString q.num ++ "/" ++ toString q.den

mutual

/-- Python `str(v)`.  Floats and nested lists are rendered best-effort (no
claim inspects those renderings); ints, bools, `None` and strings are exact. -/
def pyStr : Value → String
  | Value.vNone => "None"
  | Value.vBool true => "True"
  | Value.vBool false => "False"
  | Value.vInt n => toString n
  | Value.vFloat q => numRepr q
  | Value.vStr s => s
  | Value.vList xs => "[" ++ String.intercalate ", " (pyReprList xs) ++ "]"

/-- Python `repr` of each element of a list (used by `str` on lists):
strings gain quotes, other values render as `str`. -/
def pyReprList : List Value → List String
  | [] => []
  | Value.vStr s :: rest => ("\x27" ++ s ++ "\x27") :: pyReprList rest
  | v :: rest => pyStr v :: pyReprList rest

end

/-- Python `s.lower()` (ASCII case fold, all text in scope is ASCII). -/
def pyLower (s : String) : String := (s.data.map Char.toLower).asString

/-- Python `s.replace(',', '')`: delete every comma. -/
def dropCommas (s : String) : String := (s.data.filter (fun c => c ≠ ',')).asString

/-- Python `s.strip()`: drop whitespace from both ends. -/
def pyStrip (s : String) : String :=
  ((s.data.dropWhile Char.isWhitespace).reverse.dropWhile Char.isWhitespace).reverse.asString

/-- Is the string a run of decimal digits? -/
def allDigits (cs : List Char) : Bool := !cs.isEmpty && cs.all Char.isDigit

/-- Numeric value of a digit run. -/
def digitsVal (cs : List Char) : Nat :=
  cs.foldl (fun acc c => acc * 10 + (c.toNat - 48)) 0

/-- Python `int(s)` on an already-stripped string: optional sign followed by
digits.  (Underscore separators and exotic bases are not modelled; no rule or
profile text in scope uses them.) -/
def pyParseInt (s : String) : Option Int :=
  match s.data with
  | [] => none
  | c :: rest =>
    if c = '-' then
      if allDigits rest then some (-(digitsVal rest : Int)) else none
    else if c = '+' then
      if allDigits rest then some (digitsVal rest : Int) else none
    else if allDigits (c :: rest) then some (digitsVal (c :: rest) : Int) else none

/-- Digits with an optional single decimal point, as an exact rational. -/
def parseDecimal (cs : List Char) : Option ℚ :=
  match cs.span (fun c => c ≠ '.') with
  | (intPart, []) =>
    if allDigits intPart then some ((digitsVal intPart : ℚ)) else none
  | (intPart, _dot :: fracPart) =>
    if (allDigits intPart || intPart.isEmpty) &&
       (allDigits fracPart || fracPart.isEmpty) &&
       !(intPart.isEmpty && fracPart.isEmpty) &&
       fracPart.all Char.isDigit && intPart.all Char.isDigit then
      some ((digitsVal intPart : ℚ) + (digitsVal fracPart : ℚ) / ((10 : ℚ) ^ fracPart.length))
    else none

/-- Python `float(s)` on an already-stripped string: optional sign, digits,
optional fractional part.  (Exponent, `inf` and `nan` forms are not modelled;
no text in scope uses them.) -/
def pyParseFloat (s : String) : Option ℚ :=
  match s.data with
  | [] => none
  | c :: rest =>
    if c = '-' then (parseDecimal rest).map (fun q => -q)
    else if c = '+' then parseDecimal rest
    else parseDecimal (c :: rest)

/-- A profile: a finite mapping from field names to values.  Lookup takes the
first binding, matching Python dict semantics on unique keys. -/
def Profile := List (String × Value)

/-- Python `profile.get(field)`: `None` when the key is absent. -/
def profileGet (p : Profile) (f : String) : Value :=
  match p.find? (fun kv => kv.1 = f) with
  | some kv => kv.2
  | none => Value.vNone

/-- `MatchingEngine._safe_cast_number` (`src/webapp/matcher.py`): `None` for
`None`; numbers pass through (Python's `isinstance(v, (int, float))` is also
true for booleans, an `int` subclass, so `True`/`False` act as `1`/`0`);
otherwise stringify, drop commas, strip, then try `float` if a dot is present
else `int`, falling back to `float`. -/
def safe_cast_number (v : Value) : Option ℚ :=
  match v with
  | Value.vNone => none
  | Value.vBool b => some (if b then 1 else 0)
  | Value.vInt n => some (n : ℚ)
  | Value.vFloat q => some q
  | _ =>
    let s := pyStrip (dropCommas (pyStr v))
    if s.data.contains '.' then
      pyParseFloat s
    else
      match pyParseInt s with
      | some n => some (n : ℚ)
      | none => pyParseFloat s

/-- An atomic condition `{field, op, value}` as produced by the parsers and
consumed by `_evaluate_rule`. -/
structure Cond where
  field : String
  op : String
  value : Value

/-- The dict returned by `MatchingEngine._evaluate_rule`: rule text, tri-state
status (`none` = Python `None` = skipped), the profile value, explanation
text, and the `skipped` flag. -/
structure Outcome where
  rule : String
  status : Option Bool
  profile_value : Value
  explanation : String
  skipped : Bool

/-- Coerce a value to the list of lowercase strings used by `in`/`not_in`:
a list maps elementwise, a scalar becomes a one-element list. -/
def membershipStrings (v : Value) : List String :=
  match v with
  | Value.vList xs => xs.map (fun x => pyLower (pyStr x))
  | _ => [pyLower (pyStr v)]

/-- `MatchingEngine._evaluate_rule` (`src/webapp/matcher.py` lines 39-150):
evaluate one atomic condition against a profile.  Missing field → skipped;
numeric operators coerce both sides (uncoercible → Fail); `in`/`not_in`
compare lowercase string sets; `==` compares truthiness against a bool rule
value, else lowercase strings; `!=` compares lowercase strings; any other
operator → Fail with an error explanation. -/
def evaluate_rule (profile : Profile) (rule : Cond) : Outcome :=
  let field := rule.field
  let op := rule.op
  let value := rule.value
  let profile_value := profileGet profile field
  let ruleText := field ++ " " ++ op ++ " " ++ pyStr value
  if profile_value.isNone then
    { rule := ruleText, status := none, profile_value := Value.vNone,
      explanation := "SKIPPED: Profile missing field \x27" ++ field ++ "\x27.",
      skipped := true }
  else if op = ">" ∨ op = "<" ∨ op = ">=" ∨ op = "<=" then
    match safe_cast_number value, safe_cast_number profile_value with
    | some rule_num, some prof_num =>
      let status : Bool :=
        if op = ">" then prof_num > rule_num
        else if op = "<" then prof_num < rule_num
        else if op = ">=" then prof_num ≥ rule_num
        else prof_num ≤ rule_num
      { rule := ruleText, status := some status, profile_value := profile_value,
        explanation := (if status then "PASS" else "FAIL") ++ ": " ++ field ++
          " (" ++ numRepr prof_num ++ ") " ++ op ++ " " ++ numRepr rule_num ++ ".",
        skipped := false }
    | _, _ =>
      { rule := ruleText, status := some false, profile_value := profile_value,
        explanation := "FAIL: Non-numeric values for \x27" ++ field ++ "\x27.",
        skipped := false }
  else if op = "in" ∨ op = "not_in" then
    let prof_values := membershipStrings profile_value
    let rule_values := membershipStrings value
    if op = "in" then
      let status := prof_values.any (fun pv => rule_values.contains pv)
      { rule := ruleText, status := some status, profile_value := profile_value,
        explanation := (if status then "PASS" else "FAIL") ++ ": " ++ field ++
          " (" ++ pyStr profile_value ++ ") " ++ (if status then "is" else "is not") ++
          " in required set " ++ pyStr value ++ ".",
        skipped := false }
    else
      let status := !prof_values.any (fun pv => rule_values.contains pv)
      { rule := ruleText, status := some status, profile_value := profile_value,
        explanation := (if status then "PASS" else "FAIL") ++ ": " ++ field ++
          " (" ++ pyStr profile_value ++ ") exclusion check passed.",
        skipped := false }
  else if op = "==" then
    let status :=
      match value with
      | Value.vBool b => pyTruthy profile_value = b
      | _ => pyLower (pyStr profile_value) = pyLower (pyStr value)
    { rule := ruleText, status := some status, profile_value := profile_value,
      explanation := (if status then "PASS" else "FAIL") ++ ": " ++ field ++
        " matches " ++ pyStr value ++ ".",
      skipped := false }
  else if op = "!=" then
    let status := pyLower (pyStr profile_value) ≠ pyLower (pyStr value)
    { rule := ruleText, status := some status, profile_value := profile_value,
      explanation := (if status then "PASS" else "FAIL") ++ ": " ++ field ++
        " does not match " ++ pyStr value ++ ".",
      skipped := false }
  else
    { rule := ruleText, status := some false, profile_value := profile_value,
      explanation := "ERROR: Unknown operator \x27" ++ op ++ "\x27",
      skipped := false }

/-- A rule AST as consumed by `MatchingEngine.evaluate`: a dict with an `any`
key (OR logic, checked first) or else an `all` key (AND logic, the default,
with `[]` when the key is absent). -/
inductive RuleAst where
  | anyTree : List Cond → RuleAst
  | allTree : List Cond → RuleAst

/-- The condition list and mode selected by `evaluate` lines 161-166. -/
def RuleAst.rulesList : RuleAst → List Cond
  | RuleAst.anyTree rs => rs
  | RuleAst.allTree rs => rs

/-- `true` when the tree has an `any` key (OR logic). -/
def RuleAst.isAny : RuleAst → Bool
  | RuleAst.anyTree _ => true
  | RuleAst.allTree _ => false

/-- One element of the `outcomes` list returned by `evaluate`: either a rule
outcome (with the `atom` key added by the loop; the loop also copies
`explanation` into `msg`) or the error marker dict of the empty-tree case. -/
inductive EvalItem where
  | item : Outcome → Cond → EvalItem
  | errorMarker : String → EvalItem

/-- Python truthiness of an outcome's `status` entry (`None` is falsy). -/
def statusTruthy (o : Outcome) : Bool :=
  match o.status with
  | some b => b
  | none => false

/-- The outcomes of evaluating each condition of a list in order. -/
def outcomesOf (p : Profile) (rs : List Cond) : List Outcome :=
  rs.map (evaluate_rule p)

/-- `passing_rules` after the loop in `evaluate`: non-skipped outcomes with a
truthy status. -/
def passedCount (p : Profile) (rs : List Cond) : Nat :=
  (outcomesOf p rs).countP (fun o => !o.skipped && statusTruthy o)

/-- `failed_rules` after the loop in `evaluate`: non-skipped outcomes with a
falsy status. -/
def failedCount (p : Profile) (rs : List Cond) : Nat :=
  (outcomesOf p rs).countP (fun o => !o.skipped && !statusTruthy o)

/-- `MatchingEngine.evaluate` (`src/webapp/matcher.py` lines 152-211):
returns `(final_eligibility, score, outcomes)`.  An empty condition list
short-circuits to `(False, 0.0, [error marker])`; otherwise the score is
`passing_rules / total_rules` and eligibility is `passed > 0` in `any` mode,
`failed == 0` in `all` mode.  The single loop of the source is rendered as a
map for the outcomes plus the two counts, which tally exactly the loop's
increments. -/
def evaluate (p : Profile) (ast : RuleAst) : Bool × ℚ × List EvalItem :=
  let rules_list := ast.rulesList
  let total_rules := rules_list.length
  if total_rules = 0 then
    (false, 0, [EvalItem.errorMarker "Empty rule set"])
  else
    let outcomes := rules_list.map (fun r => EvalItem.item (evaluate_rule p r) r)
    let passing_rules := passedCount p rules_list
    let failed_rules := failedCount p rules_list
    let score : ℚ := (passing_rules : ℚ) / (total_rules : ℚ)
    let final_eligibility :=
      if ast.isAny then passing_rules > 0 else failed_rules = 0
    (final_eligibility, score, outcomes)

/-- The `best_details` value tracked by `evaluate_rules_for_profile`: either
the initial note dict (`No eligibility rule defined yet`) or a dict whose
`evaluations` key holds the outcome list of the best rule.  (The `snippet`,
`parser_confidence` and `rule_id` entries of the source dict are metadata
copied from the rule record; no claim inspects them.) -/
inductive Details where
  | note : String → Details
  | evals : List EvalItem → Details

/-- A scheme together with its stored rule trees (`Scheme` joined with its
`SchemeRule` rows; the database fetch is abstracted as an input list). -/
structure SchemeRec where
  id : Nat
  title : String
  description : String
  rules : List RuleAst

/-- One entry of the list returned by `evaluate_rules_for_profile`. -/
structure ResultRec where
  scheme_id : Nat
  title : String
  description : String
  result : String
  score : ℚ
  reasons : Details

/-- Round-half-to-even to an integer (Python `round` tie behaviour). -/
def roundHalfEven (x : ℚ) : Int :=
  let n := Int.floor x
  let frac := x - (n : ℚ)
  if frac < 1 / 2 then n
  else if 1 / 2 < frac then n + 1
  else if n % 2 = 0 then n else n + 1

/-- Python `round(x, 2)` on the exact rational value. -/
def pyRound2 (x : ℚ) : ℚ := (roundHalfEven (x * 100) : ℚ) / 100

/-- The per-scheme loop of `evaluate_rules_for_profile` lines 248-268:
fold over the scheme's rules, replacing the accumulator
`(best_score, best_passed, best_details)` exactly when the new score is
strictly greater. -/
def bestLoop (p : Profile) : List RuleAst → (ℚ × Bool × Details) → (ℚ × Bool × Details)
  | [], acc => acc
  | r :: rest, acc =>
    let e := evaluate p r
    bestLoop p rest (if acc.1 < e.2.1 then (e.2.1, e.1, Details.evals e.2.2) else acc)

/-- `any(d.get('skipped') for d in evaluations)` — the error-marker dict has
no `skipped` key, so `get` yields falsy `None` for it. -/
def skippedAny (items : List EvalItem) : Bool :=
  items.any (fun it =>
    match it with
    | EvalItem.item o _ => o.skipped
    | EvalItem.errorMarker _ => false)

/-- `any(d.get('status') is False for d in evaluations)` — only a non-skipped
outcome whose status is `False` counts (`None` is not `False`). -/
def failedAny (items : List EvalItem) : Bool :=
  items.any (fun it =>
    match it with
    | EvalItem.item o _ => o.status = some false
    | EvalItem.errorMarker _ => false)

/-- The per-scheme body of `evaluate_rules_for_profile` lines 241-303:
select the best rule (strictly-greater comparison, score `0.0` and the note
when no rules exist), clamp a negative best score to `0.0`, convert to a
percentage, derive the label, and build the result entry. -/
def schemeResult (p : Profile) (s : SchemeRec) : ResultRec :=
  let init : ℚ × Bool × Details := (-1, false, Details.note "No eligibility rule defined yet")
  let best := if s.rules.isEmpty then ((0 : ℚ), false, init.2.2) else bestLoop p s.rules init
  let best_score := if best.1 < 0 then (0 : ℚ) else best.1
  let score_percent := best_score * 100
  let sk := match best.2.2 with
            | Details.evals items => skippedAny items
            | Details.note _ => false
  let fl := match best.2.2 with
            | Details.evals items => failedAny items
            | Details.note _ => false
  let label :=
    if fl then "Not Eligible"
    else if best_score ≥ 1 then "Eligible"
    else if sk && !fl then "Maybe Eligible"
    else "Not Eligible"
  { scheme_id := s.id, title := s.title, description := s.description,
    result := label, score := pyRound2 score_percent, reasons := best.2.2 }

/-- The sort key order of `sorted(results, key=lambda x: (-x['score'], x['title']))`:
higher score first, ties broken by ascending title. -/
def resultLe (a b : ResultRec) : Bool :=
  decide (b.score < a.score) || (decide (a.score = b.score) && decide (a.title ≤ b.title))

/-- `evaluate_rules_for_profile` (`src/webapp/matcher.py` lines 232-309) with
the database fetch abstracted as the `schemes` input: build one result per
scheme, then stable-sort by descending score and ascending title (Python
`sorted` is a stable sort; `List.insertionSort` with a total preorder is
stable — an element is inserted after all equal-key elements already placed —
so the two agree extensionally). -/
def evaluate_rules_for_profile (p : Profile) (schemes : List SchemeRec) : List ResultRec :=
  List.insertionSort (fun a b => resultLe a b = true) (schemes.map (schemeResult p))

/-!
A small backtracking regex engine modelling the Python `re` constructs the
two parsers use (`re.search`, `findall`, `finditer`, `split`, `sub`), with
leftmost-first match selection, ordered alternation, greedy and lazy
repetition, capture groups (last match wins), word boundaries and the `$`
anchor.  All parser patterns are compiled with `re.IGNORECASE`, so literals
and classes here match case-insensitively throughout.
-/

/-- Regex abstract syntax covering the parsers' patterns. -/
inductive Re where
  | eps : Re
  | lit : String → Re
  | cls : (Char → Bool) → Re
  | seq : Re → Re → Re
  | alt : Re → Re → Re
  | rep : Re → Nat → Option Nat → Bool → Re
  | grp : Nat → Re → Re
  | wordB : Re
  | eos : Re

/-- Matcher state: the unconsumed suffix, the previously consumed character
(for word boundaries) and the captures recorded so far (latest first). -/
structure MSt where
  rest : List Char
  prev : Option Char
  caps : List (Nat × List Char)

/-- Python `\w` (ASCII portion). -/
def isWordChar (c : Char) : Bool := c.isAlphanum || c = '_'

/-- Consume a literal, case-insensitively (`re.IGNORECASE`). -/
def litMatch : List Char → MSt → Option MSt
  | [], st => some st
  | c :: cs, st =>
    match st.rest with
    | [] => none
    | d :: ds =>
      if d.toLower = c.toLower then
        litMatch cs { rest := ds, prev := some d, caps := st.caps }
      else none

/-- All ways a regex can match a prefix of the state's suffix, in Python's
backtracking priority order (head = preferred).  `fuel` bounds recursion
depth; callers pass ample fuel (repetition of a non-consuming body does not
recurse, matching Python's refusal to repeat an empty match). -/
def mmatch : Nat → Re → MSt → List MSt
  | 0, _, _ => []
  | _ + 1, Re.eps, st => [st]
  | _ + 1, Re.lit s, st =>
    match litMatch s.data st with
    | some st2 => [st2]
    | none => []
  | _ + 1, Re.cls f, st =>
    match st.rest with
    | d :: ds => if f d then [{ rest := ds, prev := some d, caps := st.caps }] else []
    | [] => []
  | fuel + 1, Re.seq a b, st => (mmatch fuel a st).flatMap (mmatch fuel b)
  | fuel + 1, Re.alt a b, st => mmatch fuel a st ++ mmatch fuel b st
  | fuel + 1, Re.grp i a, st =>
    (mmatch fuel a st).map (fun st2 =>
      { st2 with caps := (i, st.rest.take (st.rest.length - st2.rest.length)) :: st2.caps })
  | _ + 1, Re.wordB, st =>
    let pw := match st.prev with | some c => isWordChar c | none => false
    let nw := match st.rest with | c :: _ => isWordChar c | [] => false
    if pw != nw then [st] else []
  | _ + 1, Re.eos, st => if st.rest.isEmpty then [st] else []
  | fuel + 1, Re.rep a lo hi lz, st =>
    match lo with
    | m + 1 =>
      (mmatch fuel a st).flatMap fun st2 =>
        mmatch fuel (Re.rep a m (hi.map (· - 1)) lz) st2
    | 0 =>
      if hi = some 0 then [st]
      else
        let more :=
          (mmatch fuel a st).flatMap fun st2 =>
            if st2.rest.length < st.rest.length then
              mmatch fuel (Re.rep a 0 (hi.map (· - 1)) lz) st2
            else []
        if lz then st :: more else more ++ [st]

/-- A match: start and end offsets into the text plus the captures. -/
structure MatchRes where
  startIdx : Nat
  endIdx : Nat
  caps : List (Nat × List Char)

/-- `m.group(n)`: latest capture of group `n`, `none` if it never matched. -/
def capGet (m : MatchRes) (n : Nat) : Option (List Char) :=
  (m.caps.find? (fun c => c.1 = n)).map (fun c => c.2)

/-- Fuel ample for every pattern/text pair in scope (recursion depth is at
most pattern depth plus a constant per consumed character). -/
def fuelFor (text : List Char) : Nat := 8 * text.length + 800

/-- Scan start positions left to right; at the first position where the
pattern matches, return the backtracking engine's preferred match. -/
def searchAux (re : Re) (fuel fullLen : Nat) : Option Char → List Char → Option MatchRes
  | prev, s =>
    match mmatch fuel re { rest := s, prev := prev, caps := [] } with
    | st :: _ =>
      some { startIdx := fullLen - s.length, endIdx := fullLen - st.rest.length, caps := st.caps }
    | [] =>
      match s with
      | [] => none
      | c :: rest => searchAux re fuel fullLen (some c) rest

/-- Python `pattern.search(text)`. -/
def reSearch (re : Re) (text : List Char) : Option MatchRes :=
  searchAux re (fuelFor text) text.length none text

/-- Python `pattern.search(text, pos)`: search the suffix, keeping the
character before `pos` for word-boundary context. -/
def reSearchFrom (re : Re) (text : List Char) (pos : Nat) : Option MatchRes :=
  let prev := if pos = 0 then none else (text.drop (pos - 1)).head?
  searchAux re (fuelFor text) text.length prev (text.drop pos)

/-- Iterate matches; the fuel (`text.length + 1` at the top call) bounds the
match count, since each successive search starts strictly later. -/
def finditerGo (re : Re) (text : List Char) : Nat → Nat → List MatchRes
  | 0, _ => []
  | fuel + 1, pos =>
    match reSearchFrom re text pos with
    | none => []
    | some m =>
      m :: finditerGo re text fuel (if m.endIdx = m.startIdx then m.startIdx + 1 else m.endIdx)

/-- Python `pattern.finditer(text)`: non-overlapping matches left to right
(an empty match advances one position). -/
def reFinditer (re : Re) (text : List Char) : List MatchRes :=
  finditerGo re text (text.length + 1) 0

/-- Python `pattern.findall(text)` for a single-group pattern: the list of
group-1 captures (the empty string when the group did not participate). -/
def reFindall1 (re : Re) (text : List Char) : List (List Char) :=
  (reFinditer re text).map (fun m => (capGet m 1).getD [])

/-- The slice `text[i:j]`. -/
def sliceChars (text : List Char) (i j : Nat) : List Char := (text.drop i).take (j - i)

/-- Pieces of the text between successive matches. -/
def splitPieces (text : List Char) : Nat → List MatchRes → List (List Char)
  | i, [] => [text.drop i]
  | i, m :: ms => sliceChars text i m.startIdx :: splitPieces text m.endIdx ms

/-- Python `re.split(pattern, s)` for a groupless pattern. -/
def reSplit (re : Re) (text : List Char) : List (List Char) :=
  splitPieces text 0 (reFinditer re text)

/-- Python `re.sub(pattern, "", s)`: delete every match. -/
def reSubEmpty (re : Re) (text : List Char) : List Char :=
  (reSplit re text).flatten

/-- Sequence a list of regexes. -/
def reSeqL (rs : List Re) : Re := rs.foldr Re.seq Re.eps

/-- Ordered alternation of a list of regexes (first alternative preferred). -/
def reAltL : List Re → Re
  | [] => Re.cls (fun _ => false)
  | [r] => r
  | r :: rest => Re.alt r (reAltL rest)

/-- `r?` (greedy). -/
def reOpt (r : Re) : Re := Re.rep r 0 (some 1) false

/-- `r*` (greedy). -/
def reStar (r : Re) : Re := Re.rep r 0 none false

/-- `r+` (greedy). -/
def rePlus (r : Re) : Re := Re.rep r 1 none false

/-- `r+?` (lazy). -/
def rePlusLazy (r : Re) : Re := Re.rep r 1 none true

/-- `\s` -/
def reSp : Re := Re.cls Char.isWhitespace

/-- `\s*` -/
def sps0 : Re := reStar reSp

/-- `\s+` -/
def sps1 : Re := rePlus reSp

/-- `\d{1,3}` -/
def d13 : Re := Re.rep (Re.cls Char.isDigit) 1 (some 3) false

/-- `[\d,]+(?:\.\d+)?` — the amount capture of the income patterns. -/
def amountRe : Re :=
  reSeqL [rePlus (Re.cls (fun c => c.isDigit || c = ',')),
          reOpt (reSeqL [Re.lit ".", rePlus (Re.cls Char.isDigit)])]

/-- `(?:₹|Rs\.?|INR)?` -/
def currencyOpt : Re :=
  reOpt (reAltL [Re.lit "₹", reSeqL [Re.lit "Rs", reOpt (Re.lit ".")], Re.lit "INR"])

/-- Pattern `age_between` of `RuleParser.__init__`:
`(?:age(?:d)?\s*(?:of)?\s*)?(?:between|from)\s*(\d{1,3})\s*(?:-|–|—|\sto\s|and)\s*(\d{1,3})`. -/
def pat_age_between : Re :=
  reSeqL [reOpt (reSeqL [Re.lit "age", reOpt (Re.lit "d"), sps0, reOpt (Re.lit "of"), sps0]),
          reAltL [Re.lit "between", Re.lit "from"],
          sps0, Re.grp 1 d13, sps0,
          reAltL [Re.lit "-", Re.lit "–", Re.lit "—",
                  reSeqL [reSp, Re.lit "to", reSp], Re.lit "and"],
          sps0, Re.grp 2 d13]

/-- Pattern `age_simple_range`: `(\d{1,3})\s*(?:-|–|—)\s*(\d{1,3})\s*(?:years?)?`. -/
def pat_age_simple_range : Re :=
  reSeqL [Re.grp 1 d13, sps0, reAltL [Re.lit "-", Re.lit "–", Re.lit "—"],
          sps0, Re.grp 2 d13, sps0,
          reOpt (reSeqL [Re.lit "year", reOpt (Re.lit "s")])]

/-- `(?:age\s*|applicant\s*|applicants\s*|applicant's\s*)?` — shared prefix of
the `age_min`/`age_max` patterns. -/
def ageSubjectOpt : Re :=
  reOpt (reAltL [reSeqL [Re.lit "age", sps0], reSeqL [Re.lit "applicant", sps0],
                 reSeqL [Re.lit "applicants", sps0], reSeqL [Re.lit "applicant\x27s", sps0]])

/-- Pattern `age_min`: `...(?:over|above|at least|>=)\s*(\d{1,3})`. -/
def pat_age_min : Re :=
  reSeqL [ageSubjectOpt,
          reAltL [Re.lit "over", Re.lit "above", Re.lit "at least", Re.lit ">="],
          sps0, Re.grp 1 d13]

/-- Pattern `age_max`: `...(?:under|below|less than|<=|not exceeding)\s*(\d{1,3})`. -/
def pat_age_max : Re :=
  reSeqL [ageSubjectOpt,
          reAltL [Re.lit "under", Re.lit "below", Re.lit "less than", Re.lit "<=",
                  Re.lit "not exceeding"],
          sps0, Re.grp 1 d13]

/-- Pattern `income_max` of `RuleParser.__init__` (prefix, income noun,
optional verb, optional bound word, optional currency, amount capture,
optional magnitude word — the magnitude never scales the number). -/
def pat_income_max : Re :=
  reSeqL [reOpt (reAltL [reSeqL [Re.lit "family\x27s", sps1],
                         reSeqL [Re.lit "annual", sps1],
                         reSeqL [Re.lit "annual", sps1, Re.lit "family", sps1],
                         reSeqL [Re.lit "family", sps1, Re.lit "annual", sps1]]),
          reAltL [Re.lit "income", Re.lit "earnings", Re.lit "annual income",
                  Re.lit "family income", Re.lit "total family income"],
          sps0,
          reOpt (reAltL [Re.lit "should be", Re.lit "should not exceed",
                         Re.lit "should not be more than", Re.lit "should be less than",
                         Re.lit "is", Re.lit "are", Re.lit ":"]),
          sps0,
          reOpt (reAltL [Re.lit "less than", Re.lit "below", Re.lit "under",
                         Re.lit "not exceeding"]),
          sps0, currencyOpt, sps0,
          Re.grp 1 amountRe,
          sps0,
          reOpt (reAltL [Re.lit "lakh", Re.lit "lakhs", Re.lit "lacs", Re.lit "thousand",
                         Re.lit "k", Re.lit "per annum", Re.lit "per year", Re.lit "/year",
                         Re.lit "pa", Re.lit "p.a.", Re.lit "annum"])]

/-- Pattern `income_min`:
`(?:income|earnings|annual income|family income)\s*(?:should be|should exceed|must be|more than|over)\s*(?:₹|Rs\.?|INR)?\s*([\d,]+(?:\.\d+)?)`. -/
def pat_income_min : Re :=
  reSeqL [reAltL [Re.lit "income", Re.lit "earnings", Re.lit "annual income",
                  Re.lit "family income"],
          sps0,
          reAltL [Re.lit "should be", Re.lit "should exceed", Re.lit "must be",
                  Re.lit "more than", Re.lit "over"],
          sps0, currencyOpt, sps0, Re.grp 1 amountRe]

/-- Pattern `gender_keywords`: `\b(women|woman|female|widow|widows|men|man|male)\b`. -/
def pat_gender : Re :=
  reSeqL [Re.wordB,
          Re.grp 1 (reAltL [Re.lit "women", Re.lit "woman", Re.lit "female", Re.lit "widow",
                            Re.lit "widows", Re.lit "men", Re.lit "man", Re.lit "male"]),
          Re.wordB]

/-- `[a-zA-Z0-9&\-\s]` (case-insensitive). -/
def stateCls : Re := Re.cls (fun c => c.isAlphanum || c = '&' || c = '-' || c.isWhitespace)

/-- Pattern `state_regex` (aditya: `location_regex`):
`\bresident\s+(?:of|in)?\s+([A-Z]?[a-zA-Z0-9&\-\s]+?)(?:[\.\n,;]|$)`. -/
def pat_state : Re :=
  reSeqL [Re.wordB, Re.lit "resident", sps1, reOpt (reAltL [Re.lit "of", Re.lit "in"]), sps1,
          Re.grp 1 (reSeqL [reOpt (Re.cls Char.isAlpha), Re.rep stateCls 1 none true]),
          reAltL [Re.cls (fun c => c = '.' || c = '\n' || c = ',' || c = ';'), Re.eos]]

/-- `[A-Za-z0-9\s\-\&]` -/
def neCls : Re := Re.cls (fun c => c.isAlphanum || c.isWhitespace || c = '-' || c = '&')

/-- Pattern `not_eligible_for`:
`([A-Za-z0-9\s\-\&]+?)\s+(?:are|is|were|being|be)\s+not\s+eligible|not\s+eligible\s+for\s+([A-Za-z0-9\s\-\&]+)`. -/
def pat_not_eligible_for : Re :=
  Re.alt
    (reSeqL [Re.grp 1 (Re.rep neCls 1 none true), sps1,
             reAltL [Re.lit "are", Re.lit "is", Re.lit "were", Re.lit "being", Re.lit "be"],
             sps1, Re.lit "not", sps1, Re.lit "eligible"])
    (reSeqL [Re.lit "not", sps1, Re.lit "eligible", sps1, Re.lit "for", sps1,
             Re.grp 2 (Re.rep neCls 1 none false)])

/-- Pattern `caste_sc`: `\b(sc|scheduled\s+caste|scheduled\s+castes)\b`. -/
def pat_caste_sc : Re :=
  reSeqL [Re.wordB,
          Re.grp 1 (reAltL [Re.lit "sc", reSeqL [Re.lit "scheduled", sps1, Re.lit "caste"],
                            reSeqL [Re.lit "scheduled", sps1, Re.lit "castes"]]),
          Re.wordB]

/-- Pattern `caste_st`: `\b(st|scheduled\s+tribe|scheduled\s+tribes)\b`. -/
def pat_caste_st : Re :=
  reSeqL [Re.wordB,
          Re.grp 1 (reAltL [Re.lit "st", reSeqL [Re.lit "scheduled", sps1, Re.lit "tribe"],
                            reSeqL [Re.lit "scheduled", sps1, Re.lit "tribes"]]),
          Re.wordB]

/-- Pattern `caste_obc`: `\b(obc|other\s+backward\s+class|backward\s+class)\b`. -/
def pat_caste_obc : Re :=
  reSeqL [Re.wordB,
          Re.grp 1 (reAltL [Re.lit "obc",
                            reSeqL [Re.lit "other", sps1, Re.lit "backward", sps1, Re.lit "class"],
                            reSeqL [Re.lit "backward", sps1, Re.lit "class"]]),
          Re.wordB]

/-- Pattern `caste_general`: `\b(general|unreserved|ur)\b`. -/
def pat_caste_general : Re :=
  reSeqL [Re.wordB,
          Re.grp 1 (reAltL [Re.lit "general", Re.lit "unreserved", Re.lit "ur"]),
          Re.wordB]

/-- The fixed job vocabulary `INDIAN_JOBS` of `RuleParser.__init__`. -/
def INDIAN_JOBS : List String :=
  ["farmer", "engineer", "software developer", "doctor", "nurse",
   "teacher", "professor", "student", "labourer", "shopkeeper",
   "manager", "police", "soldier", "army", "government employee",
   "civil servant", "artisan", "fisherman", "driver", "chef",
   "electrician", "plumber", "carpenter", "accountant", "banker",
   "business owner", "entrepreneur", "cleaner", "security guard",
   "architect", "journalist", "photographer", "lawyer", "advocate",
   "researcher", "scientist", "delivery agent", "rickshaw puller",
   "tailor", "mechanic", "welder", "data entry operator", "clerk",
   "home maker", "housewife", "unemployed", "retired"]

/-- Pattern `occupation_regex`: `\b(job1|job2|...)(?:s)?\b`. -/
def pat_occupation : Re :=
  reSeqL [Re.wordB, Re.grp 1 (reAltL (INDIAN_JOBS.map Re.lit)), reOpt (Re.lit "s"), Re.wordB]

/-- The split pattern `r',|\band\b'` used on exclusion groups. -/
def pat_comma_and : Re :=
  Re.alt (Re.lit ",") (reSeqL [Re.wordB, Re.lit "and", Re.wordB])

/-- The substitution pattern `r'\s+state$'`. -/
def pat_trailing_state : Re := reSeqL [sps1, Re.lit "state", Re.eos]

/-- `RuleParser._clean_amount` (`src/webapp/rule_parser.py` lines 48-54):
drop commas, strip, then `float` if a dot is present else `int`; `None` on
failure (no fallback, unlike the matcher's `_safe_cast_number`).  The result
keeps Python's int/float distinction. -/
def clean_amount (s : String) : Option Value :=
  let t := pyStrip (dropCommas s)
  if t.data.contains '.' then (pyParseFloat t).map Value.vFloat
  else (pyParseInt t).map Value.vInt

/-- Python `int(v)` on a number: truncation toward zero. -/
def pyIntOf : Value → Int
  | Value.vInt n => n
  | Value.vFloat q => Int.tdiv q.num q.den
  | _ => 0

/-- Group `n` of a match, as a string, when it participated. -/
def groupStr (m : MatchRes) (n : Nat) : Option String :=
  (capGet m n).map List.asString

/-- `RuleParser._parse_age` (`src/webapp/rule_parser.py` lines 58-82): try
`age_between`, then `age_simple_range` (each returning both bounds on
success), else collect an `age_min` bound and an `age_max` bound
independently. -/
def parse_age (text : List Char) : List Cond :=
  let viaRange := fun (pat : Re) =>
    match reSearch pat text with
    | some m =>
      match (groupStr m 1).bind clean_amount, (groupStr m 2).bind clean_amount with
      | some a, some b =>
        some [Cond.mk "age" ">=" (Value.vInt (pyIntOf a)), Cond.mk "age" "<=" (Value.vInt (pyIntOf b))]
      | _, _ => none
    | none => none
  match viaRange pat_age_between with
  | some rules => rules
  | none =>
    match viaRange pat_age_simple_range with
    | some rules => rules
    | none =>
      (match reSearch pat_age_min text with
       | some m =>
         match (groupStr m 1).bind clean_amount with
         | some a => [Cond.mk "age" ">=" (Value.vInt (pyIntOf a))]
         | none => []
       | none => []) ++
      (match reSearch pat_age_max text with
       | some m =>
         match (groupStr m 1).bind clean_amount with
         | some a => [Cond.mk "age" "<=" (Value.vInt (pyIntOf a))]
         | none => []
       | none => [])

/-- `RuleParser._parse_income` (`src/webapp/rule_parser.py` lines 84-94):
an `income <= amt` condition from `income_max` and, independently, an
`income >= amt` condition from `income_min`. -/
def parse_income (text : List Char) : List Cond :=
  (match reSearch pat_income_max text with
   | some m =>
     match (groupStr m 1).bind clean_amount with
     | some amt => [Cond.mk "income" "<=" (amt)]
     | none => []
   | none => []) ++
  (match reSearch pat_income_min text with
   | some m =>
     match (groupStr m 1).bind clean_amount with
     | some amt => [Cond.mk "income" ">=" (amt)]
     | none => []
   | none => [])

/-- `RuleParser._normalize_token` (`src/webapp/rule_parser.py` lines 96-100):
lowercase, strip, drop a trailing `state` word, strip, then drop a simple
plural `s` when longer than three characters. -/
def normalize_token (s : String) : String :=
  let s1 := pyStrip (pyLower s)
  let s2 := pyStrip (reSubEmpty pat_trailing_state s1.data).asString
  if (s2.data.getLast? == some 's') && s2.data.length > 3 then s2.data.dropLast.asString else s2

/-- `RuleParser._parse_caste` (`src/webapp/rule_parser.py` lines 102-113):
one `caste in [...]` condition listing the detected categories.  (The source
accumulates them in a Python `set`, whose iteration order is unspecified;
the list below fixes the check order sc, st, obc, general.) -/
def parse_caste (text : List Char) : List Cond :=
  let castes_found :=
    (if (reSearch pat_caste_sc text).isSome then ["Scheduled Caste (SC)"] else []) ++
    (if (reSearch pat_caste_st text).isSome then ["Scheduled Tribe (ST)"] else []) ++
    (if (reSearch pat_caste_obc text).isSome then ["Other Backward Classes (OBC)"] else []) ++
    (if (reSearch pat_caste_general text).isSome then ["General/Unreserved"] else [])
  if castes_found.isEmpty then []
  else [Cond.mk "caste" "in" (Value.vList (castes_found.map Value.vStr))]

/-- Python `a or b or ""` over optional match groups: the first participating
non-empty group, else the empty string. -/
def firstTruthyGroup (m : MatchRes) : String :=
  match groupStr m 1 with
  | some g1 => if g1 ≠ "" then g1 else (groupStr m 2).getD ""
  | none => (groupStr m 2).getD ""

/-- The exclusion set built by `_parse_categorical` from every
`not_eligible_for` match: group text, split on `,`/`and`, each part
normalized; empty tokens dropped.  Modelled as a duplicate-free list in
first-insertion order (the source uses a Python `set`; only membership and
the sorted listing are consumed). -/
def excludedSet (text : List Char) : List String :=
  ((reFinditer pat_not_eligible_for text).flatMap (fun m =>
    let group := pyStrip (firstTruthyGroup m)
    if group = "" then []
    else (reSplit pat_comma_and group.data).flatMap (fun part =>
      let norm := normalize_token part.asString
      if norm ≠ "" then [norm] else []))).eraseDups

/-- Python `sorted` on strings (lexicographic by code point). -/
def pySortStrings (l : List String) : List String :=
  List.insertionSort (fun a b => a ≤ b) l

/-- `RuleParser._parse_categorical` (`src/webapp/rule_parser.py` lines
115-154): exclusion set, positive occupations (deduplicated, sorted,
filtered by the exclusion set), an occupation `not_in` condition for the
exclusions, a gender condition (female terms take priority), and a first
`resident of/in X` state condition. -/
def parse_categorical (text : List Char) : List Cond :=
  let excluded := excludedSet text
  let occs := reFindall1 pat_occupation text
  let occ_norms :=
    pySortStrings (((occs.filter (fun o => !o.isEmpty)).map
      (fun o => normalize_token o.asString)).eraseDups)
  let positive_occs := occ_norms.filter (fun o => !excluded.contains o)
  let occRules :=
    (if !positive_occs.isEmpty then
      [Cond.mk "occupation" "in" (Value.vList (positive_occs.map Value.vStr))]
     else ([] : List Cond)) ++
    (if !excluded.isEmpty then
      [Cond.mk "occupation" "not_in" (Value.vList ((pySortStrings excluded).map Value.vStr))]
     else [])
  let genders := (reFindall1 pat_gender text).map (fun g => pyLower g.asString)
  let genderRules :=
    if genders.isEmpty then ([] : List Cond)
    else if genders.any (fun g =>
        g = "female" || g = "women" || g = "woman" || g = "widow" || g = "widows") then
      [Cond.mk "gender" "==" (Value.vStr "female")]
    else if genders.any (fun g => g = "male" || g = "men" || g = "man") then
      [Cond.mk "gender" "==" (Value.vStr "male")]
    else []
  let stateRules :=
    match reSearch pat_state text with
    | some m =>
      let location := pyStrip ((groupStr m 1).getD "")
      let location := pyStrip (reSubEmpty pat_trailing_state location.data).asString
      [Cond.mk "state" "in" (Value.vList [Value.vStr location])]
    | none => ([] : List Cond)
  occRules ++ genderRules ++ stateRules

/-- `RuleParser.parse_text` (`src/webapp/rule_parser.py` lines 156-171):
strip the text, concatenate the sub-extractors' conditions in order (age,
income, categorical, caste), wrap in an `all` tree; confidence `1.0`, demoted
to `0.0` when no condition was found.  Total — no input can raise. -/
def parse_text (text : String) : RuleAst × ℚ :=
  let t := (pyStrip text).data
  let conditions := parse_age t ++ parse_income t ++ parse_categorical t ++ parse_caste t
  (RuleAst.allTree conditions, if conditions.isEmpty then 0 else 1)

/-!
The aditya variant of the parser (`src/webapp/aditya/rule_parser.py`).
Its `INDIAN_JOBS` list, age/income/gender/occupation/exclusion patterns,
`_clean_amount`, `_normalize_token`, `_parse_age` and `_parse_income` are
byte-identical to the main parser's, so those definitions are shared; it has
no caste patterns, its residency pattern is named `location_regex` (same
regex, but the emitted field is `location` and the value is lowercased), and
it adds the `requires_bank_account` pattern.
-/

/-- Pattern `requires_bank_account` (`src/webapp/aditya/rule_parser.py`):
`(?:should have|must have|requires?)\s+(?:a\s+)?(?:savings\s+bank\s+account|bank account|post office savings bank account|bank account with an aadhaar link)`. -/
def pat_requires_bank_account : Re :=
  reSeqL [reAltL [Re.lit "should have", Re.lit "must have",
                  reSeqL [Re.lit "require", reOpt (Re.lit "s")]],
          sps1, reOpt (reSeqL [Re.lit "a", sps1]),
          reAltL [reSeqL [Re.lit "savings", sps1, Re.lit "bank", sps1, Re.lit "account"],
                  Re.lit "bank account",
                  Re.lit "post office savings bank account",
                  Re.lit "bank account with an aadhaar link"]]

/-- `RuleParser._parse_categorical` of the aditya variant
(`src/webapp/aditya/rule_parser.py` lines 104-155): as the main variant, but
the residency condition uses field `location` with a lowercased value, and a
`requires_bank_account` match appends `has_bank_account == True`. -/
def aditya_parse_categorical (text : List Char) : List Cond :=
  let excluded := excludedSet text
  let occs := reFindall1 pat_occupation text
  let occ_norms :=
    pySortStrings (((occs.filter (fun o => !o.isEmpty)).map
      (fun o => normalize_token o.asString)).eraseDups)
  let positive_occs := occ_norms.filter (fun o => !excluded.contains o)
  let occRules :=
    (if !positive_occs.isEmpty then
      [Cond.mk "occupation" "in" (Value.vList (positive_occs.map Value.vStr))]
     else ([] : List Cond)) ++
    (if !excluded.isEmpty then
      [Cond.mk "occupation" "not_in" (Value.vList ((pySortStrings excluded).map Value.vStr))]
     else [])
  let genders := (reFindall1 pat_gender text).map (fun g => pyLower g.asString)
  let genderRules :=
    if genders.isEmpty then ([] : List Cond)
    else if genders.any (fun g =>
        g = "female" || g = "women" || g = "woman" || g = "widow" || g = "widows") then
      [Cond.mk "gender" "==" (Value.vStr "female")]
    else if genders.any (fun g => g = "male" || g = "men" || g = "man") then
      [Cond.mk "gender" "==" (Value.vStr "male")]
    else []
  let locationRules :=
    match reSearch pat_state text with
    | some m =>
      let location := pyStrip ((groupStr m 1).getD "")
      let location := pyStrip (reSubEmpty pat_trailing_state location.data).asString
      [Cond.mk "location" "in" (Value.vList [Value.vStr (pyLower location)])]
    | none => ([] : List Cond)
  let bankRules :=
    if (reSearch pat_requires_bank_account text).isSome then
      [Cond.mk "has_bank_account" "==" (Value.vBool true)]
    else ([] : List Cond)
  occRules ++ genderRules ++ locationRules ++ bankRules

/-- `RuleParser.parse_text` of the aditya variant
(`src/webapp/aditya/rule_parser.py` lines 157-177): strip, then age, income
and categorical conditions (no caste sub-extractor), wrapped in an `all`
tree; confidence `1.0`, demoted to `0.0` when empty.  (The debug `print`
calls are I/O only and do not affect the result.) -/
def aditya_parse_text (text : String) : RuleAst × ℚ :=
  let t := (pyStrip text).data
  let conditions := parse_age t ++ parse_income t ++ aditya_parse_categorical t
  (RuleAst.allTree conditions, if conditions.isEmpty then 0 else 1)

/-! ### Helper lemmas -/

/-- A value other than `None` reports `isNone = false`. -/
theorem isNone_false_of_ne (v : Value) (h : v ≠ Value.vNone) : v.isNone = false := by
  cases v
  · exact absurd rfl h
  all_goals rfl

/-- The accumulator entry the best-rule loop builds from one evaluated rule. -/
def entryOf (p : Profile) (r : RuleAst) : ℚ × Bool × Details :=
  ((evaluate p r).2.1, (evaluate p r).1, Details.evals (evaluate p r).2.2)

/-- Every tree evaluation score is nonnegative. -/
theorem score_nonneg (p : Profile) (ast : RuleAst) : 0 ≤ (evaluate p ast).2.1 := by
  unfold evaluate
  by_cases h : ast.rulesList.length = 0
  · simp [h]
  · simp only [h, if_false]
    positivity

/-- What the best-rule loop computes: either no rule beats the accumulator
and it is returned unchanged, or the result is the entry of the first rule
attaining the maximal score above the accumulator — every score is at most
the selected one, and every earlier score is strictly below it (the
strictly-greater update keeps the first rule on ties). -/
theorem bestLoop_spec (p : Profile) :
    ∀ (rs : List RuleAst) (acc : ℚ × Bool × Details),
    (bestLoop p rs acc = acc ∧ ∀ r ∈ rs, (evaluate p r).2.1 ≤ acc.1) ∨
    (∃ i, ∃ hi : i < rs.length,
      bestLoop p rs acc = entryOf p (rs.get ⟨i, hi⟩) ∧
      acc.1 < (evaluate p (rs.get ⟨i, hi⟩)).2.1 ∧
      (∀ j, ∀ hj : j < rs.length,
        (evaluate p (rs.get ⟨j, hj⟩)).2.1 ≤ (evaluate p (rs.get ⟨i, hi⟩)).2.1) ∧
      (∀ j, ∀ hj : j < rs.length, j < i →
        (evaluate p (rs.get ⟨j, hj⟩)).2.1 < (evaluate p (rs.get ⟨i, hi⟩)).2.1))
  | [], acc => Or.inl ⟨rfl, by simp⟩
  | r :: rest, acc => by
    have hstep : bestLoop p (r :: rest) acc =
        bestLoop p rest
          (if acc.1 < (evaluate p r).2.1 then entryOf p r else acc) := by
      simp [bestLoop, entryOf]
    by_cases hlt : acc.1 < (evaluate p r).2.1
    · rw [if_pos hlt] at hstep
      rcases bestLoop_spec p rest (entryOf p r) with ⟨heq, hall⟩ | ⟨i, hi, heq, hacc, hmax, hfirst⟩
      · refine Or.inr ⟨0, by simp, ?_, ?_, ?_, ?_⟩
        · rw [hstep, heq]
          rfl
        · simpa using hlt
        · intro j hj
          match j with
          | 0 => simp
          | jj + 1 =>
            have hjj : jj < rest.length := by simpa using hj
            have := hall (rest.get ⟨jj, hjj⟩) (List.get_mem rest jj hjj)
            simpa [entryOf] using this
        · intro j hj hj0
          omega
      · have hacc1 : (entryOf p r).1 = (evaluate p r).2.1 := rfl
        refine Or.inr ⟨i + 1, by simpa using hi, ?_, ?_, ?_, ?_⟩
        · rw [hstep, heq]
          rfl
        · exact lt_trans hlt (hacc1 ▸ hacc)
        · intro j hj
          match j with
          | 0 =>
            exact le_of_lt (hacc1 ▸ hacc)
          | jj + 1 =>
            have hjj : jj < rest.length := by simpa using hj
            exact hmax jj hjj
        · intro j hj hji
          match j with
          | 0 => exact hacc1 ▸ hacc
          | jj + 1 =>
            have hjj : jj < rest.length := by simpa using hj
            exact hfirst jj hjj (by omega)
    · rw [if_neg hlt] at hstep
      rcases bestLoop_spec p rest acc with ⟨heq, hall⟩ | ⟨i, hi, heq, hacc, hmax, hfirst⟩
      · refine Or.inl ⟨by rw [hstep, heq], ?_⟩
        intro x hx
        rcases List.mem_cons.mp hx with hx | hx
        · exact hx ▸ le_of_not_lt hlt
        · exact hall x hx
      · refine Or.inr ⟨i + 1, by simpa using hi, ?_, ?_, ?_, ?_⟩
        · rw [hstep, heq]
          rfl
        · exact hacc
        · intro j hj
          match j with
          | 0 => exact le_trans (le_of_not_lt hlt) (le_of_lt hacc)
          | jj + 1 =>
            have hjj : jj < rest.length := by simpa using hj
            exact hmax jj hjj
        · intro j hj hji
          match j with
          | 0 => exact lt_of_le_of_lt (le_of_not_lt hlt) hacc
          | jj + 1 =>
            have hjj : jj < rest.length := by simpa using hj
            exact hfirst jj hjj (by omega)

/-- The result ordering is total. -/
theorem resultLe_total (a b : ResultRec) : resultLe a b = true ∨ resultLe b a = true := by
  simp only [resultLe, Bool.or_eq_true, Bool.and_eq_true, decide_eq_true_eq]
  rcases lt_trichotomy a.score b.score with h | h | h
  · exact Or.inr (Or.inl h)
  · rcases le_total a.title b.title with ht | ht
    · exact Or.inl (Or.inr ⟨h, ht⟩)
    · exact Or.inr (Or.inr ⟨h.symm, ht⟩)
  · exact Or.inl (Or.inl h)

/-- The result ordering is transitive. -/
theorem resultLe_trans (a b c : ResultRec) (hab : resultLe a b = true)
    (hbc : resultLe b c = true) : resultLe a c = true := by
  simp only [resultLe, Bool.or_eq_true, Bool.and_eq_true, decide_eq_true_eq] at *
  rcases hab with h1 | ⟨h1, t1⟩ <;> rcases hbc with h2 | ⟨h2, t2⟩
  · exact Or.inl (lt_trans h2 h1)
  · exact Or.inl (h2 ▸ h1)
  · exact Or.inl (h1 ▸ h2)
  · exact Or.inr ⟨h1.trans h2, le_trans t1 t2⟩

/-! ### Claim theorems -/

/-- C1: for every atomic condition and every profile in which the condition's
field is absent or mapped to null, the outcome is Skipped (status `None`,
`skipped` set) regardless of the operator, and such an outcome contributes to
neither the passed count nor the failed count of a tree evaluation. -/
theorem c1_missing_field_skipped (p : Profile) (c : Cond)
    (h : List.find? (fun kv => kv.1 = c.field) p = none ∨
         ∃ kv, List.find? (fun kv => kv.1 = c.field) p = some kv ∧ kv.2 = Value.vNone) :
    (evaluate_rule p c).skipped = true ∧ (evaluate_rule p c).status = none ∧
    ∀ rs1 rs2 : List Cond,
      passedCount p (rs1 ++ c :: rs2) = passedCount p (rs1 ++ rs2) ∧
      failedCount p (rs1 ++ c :: rs2) = failedCount p (rs1 ++ rs2) := by
  have hget : profileGet p c.field = Value.vNone := by
    unfold profileGet
    rcases h with h | ⟨kv, h1, h2⟩
    · rw [h]
    · rw [h1]
      exact h2
  have hsk : (evaluate_rule p c).skipped = true := by
    simp [evaluate_rule, hget, Value.isNone]
  have hst : (evaluate_rule p c).status = none := by
    simp [evaluate_rule, hget, Value.isNone]
  refine ⟨hsk, hst, fun rs1 rs2 => ⟨?_, ?_⟩⟩ <;>
    simp [passedCount, failedCount, outcomesOf, List.countP_append, List.countP_cons, hsk]

theorem c1_missing_field_skipped_witness :
    (evaluate_rule [] (Cond.mk "age" ">=" (Value.vInt 18))).skipped = true ∧
    (evaluate_rule [] (Cond.mk "age" ">=" (Value.vInt 18))).status = none ∧
    passedCount [] ([Cond.mk "income" "<=" (Value.vInt 5)] ++
        Cond.mk "age" ">=" (Value.vInt 18) :: []) =
      passedCount [] ([Cond.mk "income" "<=" (Value.vInt 5)] ++ []) ∧
    failedCount [] ([Cond.mk "income" "<=" (Value.vInt 5)] ++
        Cond.mk "age" ">=" (Value.vInt 18) :: []) =
      failedCount [] ([Cond.mk "income" "<=" (Value.vInt 5)] ++ []) :=
  have h := c1_missing_field_skipped [] (Cond.mk "age" ">=" (Value.vInt 18)) (Or.inl rfl)
  ⟨h.1, h.2.1, (h.2.2 [Cond.mk "income" "<=" (Value.vInt 5)] []).1,
    (h.2.2 [Cond.mk "income" "<=" (Value.vInt 5)] []).2⟩

/-- C2: for every non-empty condition tree, all-mode eligibility is true iff
no condition failed (skips do not block), and any-mode eligibility is true
iff at least one condition passed. -/
theorem c2_eligibility_modes (p : Profile) (rs : List Cond) (h : rs ≠ []) :
    ((evaluate p (RuleAst.allTree rs)).1 = true ↔ failedCount p rs = 0) ∧
    ((evaluate p (RuleAst.anyTree rs)).1 = true ↔ 0 < passedCount p rs) := by
  have hlen : ¬ rs.length = 0 := by simpa using h
  constructor <;> simp [evaluate, RuleAst.rulesList, RuleAst.isAny, hlen]

theorem c2_eligibility_modes_witness :
    ((evaluate [("age", Value.vInt 30)]
        (RuleAst.allTree [Cond.mk "age" ">=" (Value.vInt 18)])).1 = true ↔
      failedCount [("age", Value.vInt 30)] [Cond.mk "age" ">=" (Value.vInt 18)] = 0) ∧
    ((evaluate [("age", Value.vInt 30)]
        (RuleAst.anyTree [Cond.mk "age" ">=" (Value.vInt 18)])).1 = true ↔
      0 < passedCount [("age", Value.vInt 30)] [Cond.mk "age" ">=" (Value.vInt 18)]) :=
  c2_eligibility_modes [("age", Value.vInt 30)] [Cond.mk "age" ">=" (Value.vInt 18)]
    (List.cons_ne_nil _ _)

/-- C3: for every non-empty condition tree (either mode), the score equals
the passed count divided by the total number of child conditions (skipped
conditions included in the denominator), and lies in [0, 1]. -/
theorem c3_score_ratio_bounds (p : Profile) (rs : List Cond) (h : rs ≠ []) :
    ((evaluate p (RuleAst.allTree rs)).2.1 = (passedCount p rs : ℚ) / (rs.length : ℚ)) ∧
    ((evaluate p (RuleAst.anyTree rs)).2.1 = (passedCount p rs : ℚ) / (rs.length : ℚ)) ∧
    (0 ≤ (evaluate p (RuleAst.allTree rs)).2.1 ∧ (evaluate p (RuleAst.allTree rs)).2.1 ≤ 1) ∧
    (0 ≤ (evaluate p (RuleAst.anyTree rs)).2.1 ∧ (evaluate p (RuleAst.anyTree rs)).2.1 ≤ 1) := by
  have hlen : ¬ rs.length = 0 := by simpa using h
  have hpos : (0 : ℚ) < (rs.length : ℚ) := by
    exact_mod_cast Nat.pos_of_ne_zero hlen
  have hcnt : passedCount p rs ≤ rs.length := by
    calc passedCount p rs ≤ (outcomesOf p rs).length := List.countP_le_length _
    _ = rs.length := by simp [outcomesOf]
  have hsc1 : (evaluate p (RuleAst.allTree rs)).2.1 =
      (passedCount p rs : ℚ) / (rs.length : ℚ) := by
    simp [evaluate, RuleAst.rulesList, RuleAst.isAny, hlen]
  have hsc2 : (evaluate p (RuleAst.anyTree rs)).2.1 =
      (passedCount p rs : ℚ) / (rs.length : ℚ) := by
    simp [evaluate, RuleAst.rulesList, RuleAst.isAny, hlen]
  have hb1 : 0 ≤ (passedCount p rs : ℚ) / (rs.length : ℚ) :=
    div_nonneg (by positivity) (le_of_lt hpos)
  have hb2 : (passedCount p rs : ℚ) / (rs.length : ℚ) ≤ 1 := by
    rw [div_le_one hpos]
    exact_mod_cast hcnt
  exact ⟨hsc1, hsc2, ⟨hsc1 ▸ hb1, hsc1 ▸ hb2⟩, ⟨hsc2 ▸ hb1, hsc2 ▸ hb2⟩⟩

theorem c3_score_ratio_bounds_witness :
    ((evaluate [("age", Value.vInt 30)]
        (RuleAst.allTree [Cond.mk "age" ">=" (Value.vInt 18)])).2.1 =
      (passedCount [("age", Value.vInt 30)] [Cond.mk "age" ">=" (Value.vInt 18)] : ℚ) /
        (([Cond.mk "age" ">=" (Value.vInt 18)] : List Cond).length : ℚ)) ∧
    ((evaluate [("age", Value.vInt 30)]
        (RuleAst.anyTree [Cond.mk "age" ">=" (Value.vInt 18)])).2.1 =
      (passedCount [("age", Value.vInt 30)] [Cond.mk "age" ">=" (Value.vInt 18)] : ℚ) /
        (([Cond.mk "age" ">=" (Value.vInt 18)] : List Cond).length : ℚ)) ∧
    (0 ≤ (evaluate [("age", Value.vInt 30)]
        (RuleAst.allTree [Cond.mk "age" ">=" (Value.vInt 18)])).2.1 ∧
      (evaluate [("age", Value.vInt 30)]
        (RuleAst.allTree [Cond.mk "age" ">=" (Value.vInt 18)])).2.1 ≤ 1) ∧
    (0 ≤ (evaluate [("age", Value.vInt 30)]
        (RuleAst.anyTree [Cond.mk "age" ">=" (Value.vInt 18)])).2.1 ∧
      (evaluate [("age", Value.vInt 30)]
        (RuleAst.anyTree [Cond.mk "age" ">=" (Value.vInt 18)])).2.1 ≤ 1) :=
  c3_score_ratio_bounds [("age", Value.vInt 30)] [Cond.mk "age" ">=" (Value.vInt 18)]
    (List.cons_ne_nil _ _)

/-- C4: for every profile, a tree with zero child conditions evaluates to
exactly `(False, 0.0, [error marker])` — never vacuously eligible, no
division by zero. -/
theorem c4_empty_tree_degenerate (p : Profile) :
    evaluate p (RuleAst.allTree []) = (false, 0, [EvalItem.errorMarker "Empty rule set"]) ∧
    evaluate p (RuleAst.anyTree []) = (false, 0, [EvalItem.errorMarker "Empty rule set"]) :=
  ⟨rfl, rfl⟩

/-- C5: for every condition with a numeric operator whose field is present in
the profile, if either side fails numeric coercion the outcome is an explicit
Fail (not Skipped) with the explanatory message, and the remaining conditions
of a tree are still all evaluated (one outcome per condition). -/
theorem c5_uncoercible_numeric_fails (p : Profile) (c : Cond)
    (hop : c.op = ">" ∨ c.op = "<" ∨ c.op = ">=" ∨ c.op = "<=")
    (hpres : profileGet p c.field ≠ Value.vNone)
    (hunc : safe_cast_number c.value = none ∨ safe_cast_number (profileGet p c.field) = none) :
    (evaluate_rule p c).status = some false ∧
    (evaluate_rule p c).skipped = false ∧
    (evaluate_rule p c).explanation = "FAIL: Non-numeric values for \x27" ++ c.field ++ "\x27." ∧
    ∀ rs1 rs2 : List Cond,
      ((evaluate p (RuleAst.allTree (rs1 ++ c :: rs2))).2.2).length =
        rs1.length + 1 + rs2.length := by
  have hnn := isNone_false_of_ne _ hpres
  have hmain : (evaluate_rule p c).status = some false ∧
      (evaluate_rule p c).skipped = false ∧
      (evaluate_rule p c).explanation = "FAIL: Non-numeric values for \x27" ++ c.field ++ "\x27." := by
    rcases hunc with h1 | h2
    · cases h3 : safe_cast_number (profileGet p c.field) <;>
        simp [evaluate_rule, hnn, hop, h1, h3]
    · cases h3 : safe_cast_number c.value <;>
        simp [evaluate_rule, hnn, hop, h2, h3]
  refine ⟨hmain.1, hmain.2.1, hmain.2.2, fun rs1 rs2 => ?_⟩
  have hlen : ¬ (rs1 ++ c :: rs2).length = 0 := by simp
  simp [evaluate, RuleAst.rulesList, hlen]
  omega

theorem c5_uncoercible_numeric_fails_witness :
    (evaluate_rule [("income", Value.vStr "abc")]
        (Cond.mk "income" "<=" (Value.vStr "5x"))).status = some false ∧
    (evaluate_rule [("income", Value.vStr "abc")]
        (Cond.mk "income" "<=" (Value.vStr "5x"))).skipped = false ∧
    (evaluate_rule [("income", Value.vStr "abc")]
        (Cond.mk "income" "<=" (Value.vStr "5x"))).explanation =
      "FAIL: Non-numeric values for \x27" ++ "income" ++ "\x27." ∧
    ((evaluate [("income", Value.vStr "abc")]
        (RuleAst.allTree ([] ++ Cond.mk "income" "<=" (Value.vStr "5x") :: []))).2.2).length =
      List.length ([] : List Cond) + 1 + List.length ([] : List Cond) :=
  have h := c5_uncoercible_numeric_fails [("income", Value.vStr "abc")]
    (Cond.mk "income" "<=" (Value.vStr "5x"))
    (Or.inr (Or.inr (Or.inr rfl)))
    (fun hh => Value.noConfusion hh)
    (Or.inl rfl)
  ⟨h.1, h.2.1, h.2.2.1, h.2.2.2 [] []⟩

/-- C10: for every condition with operator `==` whose rule value is a boolean
`b` and whose field is present, the status is Pass exactly when the Python
truthiness of the profile value equals `b`; in particular the non-empty
strings `"false"`, `"no"` and `"0"` are truthy while `""`, `0` and `[]` are
falsy. -/
theorem c10_bool_equality_truthiness (p : Profile) (c : Cond) (b : Bool)
    (hop : c.op = "==") (hval : c.value = Value.vBool b)
    (hpres : profileGet p c.field ≠ Value.vNone) :
    (evaluate_rule p c).status = some (decide (pyTruthy (profileGet p c.field) = b)) ∧
    (evaluate_rule p c).skipped = false ∧
    pyTruthy (Value.vStr "false") = true ∧ pyTruthy (Value.vStr "no") = true ∧
    pyTruthy (Value.vStr "0") = true ∧ pyTruthy (Value.vStr "") = false ∧
    pyTruthy (Value.vInt 0) = false ∧ pyTruthy (Value.vList []) = false := by
  have hnn := isNone_false_of_ne _ hpres
  refine ⟨?_, ?_, by decide, by decide, by decide, by decide, by decide, by decide⟩ <;>
    simp [evaluate_rule, hnn, hop, hval]

theorem c10_bool_equality_truthiness_witness :
    (evaluate_rule [("has_bank_account", Value.vStr "false")]
        (Cond.mk "has_bank_account" "==" (Value.vBool true))).status =
      some (decide (pyTruthy (profileGet [("has_bank_account", Value.vStr "false")]
        "has_bank_account") = true)) ∧
    (evaluate_rule [("has_bank_account", Value.vStr "false")]
        (Cond.mk "has_bank_account" "==" (Value.vBool true))).skipped = false ∧
    pyTruthy (Value.vStr "false") = true ∧ pyTruthy (Value.vStr "no") = true ∧
    pyTruthy (Value.vStr "0") = true ∧ pyTruthy (Value.vStr "") = false ∧
    pyTruthy (Value.vInt 0) = false ∧ pyTruthy (Value.vList []) = false :=
  c10_bool_equality_truthiness [("has_bank_account", Value.vStr "false")]
    (Cond.mk "has_bank_account" "==" (Value.vBool true)) true rfl rfl
    (fun hh => Value.noConfusion hh)

/-- C8: extraction is total (the embedding is a total function: no input can
raise), and the returned confidence is exactly 1.0 when the extracted
condition list is non-empty and exactly 0.0 when it is empty. -/
theorem c8_extraction_total_confidence (text : String) :
    ((parse_text text).2 = 1 ↔ (parse_text text).1.rulesList ≠ []) ∧
    ((parse_text text).2 = 0 ↔ (parse_text text).1.rulesList = []) := by
  unfold parse_text
  cases h : parse_age (pyStrip text).data ++ parse_income (pyStrip text).data ++
      parse_categorical (pyStrip text).data ++ parse_caste (pyStrip text).data with
  | nil => simp [RuleAst.rulesList]
  | cons a l => simp [RuleAst.rulesList]

/-- C7: batch matching (i) keeps, per scheme, the first rule attaining the
strictly highest score (strictly-greater comparison: on an exact tie the
first-encountered rule is kept), (ii) gives a scheme with zero rule trees
score 0.0 and label `Not Eligible`, and (iii) returns the list sorted by
score descending with ties broken by ascending title. -/
theorem c7_batch_matching :
    (∀ (p : Profile) (rules : List RuleAst), rules ≠ [] →
      ∃ i, ∃ hi : i < rules.length,
        bestLoop p rules (-1, false, Details.note "No eligibility rule defined yet") =
          entryOf p (rules.get ⟨i, hi⟩) ∧
        (∀ j, ∀ hj : j < rules.length,
          (evaluate p (rules.get ⟨j, hj⟩)).2.1 ≤ (evaluate p (rules.get ⟨i, hi⟩)).2.1) ∧
        (∀ j, ∀ hj : j < rules.length, j < i →
          (evaluate p (rules.get ⟨j, hj⟩)).2.1 < (evaluate p (rules.get ⟨i, hi⟩)).2.1)) ∧
    (∀ (p : Profile) (s : SchemeRec), s.rules = [] →
      (schemeResult p s).score = 0 ∧ (schemeResult p s).result = "Not Eligible") ∧
    (∀ (p : Profile) (schemes : List SchemeRec),
      List.Pairwise (fun a b => resultLe a b = true) (evaluate_rules_for_profile p schemes)) := by
  refine ⟨?_, ?_, ?_⟩
  · intro p rules hne
    rcases bestLoop_spec p rules (-1, false, Details.note "No eligibility rule defined yet") with
      ⟨_, hall⟩ | ⟨i, hi, heq, _, hmax, hfirst⟩
    · match rules, hne with
      | r :: rest, _ =>
        have h1 := hall r (List.mem_cons_self r rest)
        have h2 := score_nonneg p r
        norm_num at h1
        linarith
    · exact ⟨i, hi, heq, hmax, hfirst⟩
  · intro p s h
    constructor
    · simp [schemeResult, h, pyRound2, roundHalfEven]
    · simp [schemeResult, h]
  · intro p schemes
    unfold evaluate_rules_for_profile
    haveI : IsTotal ResultRec (fun a b => resultLe a b = true) := ⟨resultLe_total⟩
    haveI : IsTrans ResultRec (fun a b => resultLe a b = true) := ⟨resultLe_trans⟩
    exact List.sorted_insertionSort _ _

set_option maxRecDepth 10000 in
/-- C6: extraction on the Scenario-1 text yields exactly
`[age >= 18, age <= 35, income <= 500000]` with confidence 1.0; the final
conjunct records that the `below/under` age pattern does match inside
`below 500000` (its search succeeds on the text), so it is only the
first-match short-circuit of the `between A and B` branch that keeps a bogus
age bound out of the result. -/
theorem c6_scenario_extraction :
    parse_text
        "Applicants must be between 18 and 35 years old with annual family income below 500000." =
      (RuleAst.allTree [Cond.mk "age" ">=" (Value.vInt 18), Cond.mk "age" "<=" (Value.vInt 35),
                        Cond.mk "income" "<=" (Value.vInt 500000)], 1) ∧
    (reSearch pat_age_max
        (pyStrip
          "Applicants must be between 18 and 35 years old with annual family income below 500000.").data).isSome =
      true :=
  ⟨rfl, rfl⟩

/-- C9: on the input text `must have a bank account`, the aditya variant's
categorical sub-extractor produces the requirement condition
`has_bank_account == True`, and the full extraction result consists of
exactly that condition. -/
theorem c9_bank_account_requirement :
    aditya_parse_categorical ("must have a bank account").data =
      [Cond.mk "has_bank_account" "==" (Value.vBool true)] ∧
    aditya_parse_text "must have a bank account" =
      (RuleAst.allTree [Cond.mk "has_bank_account" "==" (Value.vBool true)], 1) :=
  ⟨rfl, rfl⟩
